import Mathlib

/-!
Verification of the SAC_TelloRC repository (files `rc_controls.py` and
`tello_rc.py`) against its natural-language specification.

The Python code is shallowly embedded: floats are modelled as real numbers
(`ℝ`) where transcendental functions (`math.log`) appear, wall-clock times as
rationals (`ℚ`), Python lists/dicts as Lean lists, and the mutable objects
(`RemoteControl`, `TelloRC`) as state-passing functions on structures.
-/

/-! ## rc_controls.py: constants and maps -/

/-- The eight logical direction names that key the `held_map` dict
(`"XM", "XP", "YM", "YP", "ZP", "ZM", "RL", "RR"`). -/
inductive HeldKeyName where
  | XM | XP | YM | YP | ZP | ZM | RL | RR
deriving DecidableEq

/-- `_BUTTON` / `_AXIS` tag of a control map (`map["Type"]` in the source),
together with the per-mode bindings.  `buttonMap` carries a keyboard map
(logical direction → pygame key code); `axisMap` carries a joystick map
(logical axis → physical axis index), with `R` optional exactly as the
source tests `"R" in self.map`. -/
inductive CtrlMap where
  | buttonMap (keys : HeldKeyName → ℕ)
  | axisMap (X Y Z : ℕ) (R : Option ℕ) (RL RR : ℕ)

/-- `_Xbox_Map` from the source (axis indices X=2, Y=1, Z=3, RL=4, RR=5, R=0). -/
def Xbox_Map : CtrlMap := .axisMap 2 1 3 (some 0) 4 5

/-- `_Xbox_FPS_Map` from the source (axis indices X=0, Y=3, Z=1, RL=4, RR=5, R=2). -/
def Xbox_FPS_Map : CtrlMap := .axisMap 0 3 1 (some 2) 4 5

/-- `_Keyboard_Map` from the source; the numbers are the pygame key codes of
`K_a, K_d, K_DOWN, K_UP, K_w, K_s, K_q, K_e`. -/
def Keyboard_Map : CtrlMap := .buttonMap fun k =>
  match k with
  | .XM => 97          -- pg.K_a
  | .XP => 100         -- pg.K_d
  | .YM => 1073741905  -- pg.K_DOWN
  | .YP => 1073741906  -- pg.K_UP
  | .ZP => 119         -- pg.K_w
  | .ZM => 115         -- pg.K_s
  | .RL => 113         -- pg.K_q
  | .RR => 101         -- pg.K_e

/-- `_Xbox_Action` from the source: button number → action name. -/
def Xbox_Action : ℕ → Option String := fun b =>
  if b = 6 then some "TAKEOFF"
  else if b = 15 then some "PICTURE"
  else if b = 1 then some "STOP"
  else none

/-- `_Keyboard_Actions` from the source: pygame key code → action name
(`K_SPACE, K_p, K_ESCAPE`). -/
def Keyboard_Actions : ℕ → Option String := fun k =>
  if k = 32 then some "TAKEOFF"
  else if k = 112 then some "PICTURE"
  else if k = 27 then some "STOP"
  else none

/-! ## rc_controls.py: `_dz_axis_clamp` and the acceleration curve -/

/-- `_dz_axis_clamp(d_zone, val, positive=False)` from the source.  The guard
is the Python chained comparison `d_zone < abs(val) < d_zone`, i.e. the
conjunction of the two strict comparisons. -/
noncomputable def dz_axis_clamp (d_zone val : ℝ) (positive : Bool) : ℝ :=
  let v : ℝ := if positive then val + 1 else val
  if d_zone < |v| ∧ |v| < d_zone then 0 else v

/-- `RemoteControl.__acc_curve(t)` from the source, parametrised by the
`aggression` field.  The source mutates `t` in sequence
(`neg` sign capture, `abs`, clamp to `[0,1]`, affine map); here the same
pipeline is written as one composed expression. -/
noncomputable def acc_curve (aggression t : ℝ) : ℝ :=
  (if t < 0 then (-1 : ℝ) else 1) *
    Real.logb aggression ((aggression - 1) * max 0 (min 1 |t|) + 1)

/-- `RemoteControl.__btn_acc_curve(t)` from the source, parametrised by the
`aggression` and `acc_time` fields: clamp the held time to `[0, acc_time]`,
normalise by `acc_time`, and apply `__acc_curve`. -/
noncomputable def btn_acc_curve (aggression acc_time t : ℝ) : ℝ :=
  acc_curve aggression (max 0 (min t acc_time) / acc_time)

/-! ## rc_controls.py: `RemoteControl` state and `update` -/

/-- `self.mode`: `"keyboard"` or `"joystick"`. -/
inductive Mode where
  | keyboard | joystick
deriving DecidableEq

/-- The mutable fields of a `RemoteControl` object.  `stick` records whether a
`pg.joystick.Joystick` object is held (the object itself is external). -/
structure RemoteControl where
  aggression : ℝ
  acc_time : ℝ
  mode : Mode
  map : CtrlMap
  action_map : ℕ → Option String
  stick : Bool
  held_map : HeldKeyName → ℝ
  current_rc : List ℤ
  action_q : List String

/-- `RemoteControl.__init__(aggression, acc_time)`: clamps `aggression` to at
least 2 and `acc_time` to at least 1, starts in keyboard mode with zero held
times, rc vector `[0, 0, 0, 0]` and an empty action queue. -/
noncomputable def mkRemoteControl (aggression acc_time : ℝ) : RemoteControl :=
  { aggression := max 2 aggression
    acc_time := max 1 acc_time
    mode := .keyboard
    map := Keyboard_Map
    action_map := Keyboard_Actions
    stick := false
    held_map := fun _ => 0
    current_rc := [0, 0, 0, 0]
    action_q := [] }

/-- A `pg.JOYDEVICEADDED` / `pg.JOYDEVICEREMOVED` event. -/
inductive JoyEvent where
  | added | removed
deriving DecidableEq

/-- A `pg.JOYBUTTONDOWN` (with `event.button`) or `pg.KEYDOWN`
(with `event.key`) event. -/
inductive InEvent where
  | joyBtnDown (button : ℕ)
  | keyDown (key : ℕ)
deriving DecidableEq

/-- One iteration of the device-event loop at the top of
`RemoteControl.update`: a `JOYDEVICEADDED` event in keyboard mode switches to
joystick mode (acquiring the stick, swapping in `_Xbox_FPS_Map` and
`_Xbox_Action`); a `JOYDEVICEREMOVED` event in joystick mode switches back to
keyboard mode, swapping in the keyboard maps and resetting every held time
to `0.0`.  Note the source resets `held_map` only in the removed branch. -/
def processJoyEvent (s : RemoteControl) (e : JoyEvent) : RemoteControl :=
  match e with
  | .added =>
      if s.mode = Mode.keyboard then
        { s with mode := .joystick, stick := true,
                 map := Xbox_FPS_Map, action_map := Xbox_Action }
      else s
  | .removed =>
      if s.mode = Mode.joystick then
        { s with mode := .keyboard, map := Keyboard_Map,
                 action_map := Keyboard_Actions, held_map := fun _ => 0 }
      else s

/-- The full device-event loop of `RemoteControl.update` over the list of
pending `JOYDEVICEADDED`/`JOYDEVICEREMOVED` events, in arrival order. -/
def processJoyEvents (s : RemoteControl) (es : List JoyEvent) : RemoteControl :=
  es.foldl processJoyEvent s

/-- Python `int()` truncation toward zero of a real number. -/
noncomputable def intTrunc (x : ℝ) : ℤ :=
  if 0 ≤ x then ⌊x⌋ else ⌈x⌉

/-- The final alignment loop of `RemoteControl.__compute_rc`:
`max(-100, min(100, int(100 * v)))` applied to each component. -/
noncomputable def rcClamp (v : ℝ) : ℤ :=
  max (-100) (min 100 (intTrunc (100 * v)))

/-- The `held_map` after `RemoteControl.__compute_rc`: in button (keyboard)
mode each direction whose bound key is currently down gains `delta` seconds
and every other direction resets to `0`; in axis (joystick) mode `held_map`
is untouched. -/
noncomputable def new_held (s : RemoteControl) (pressed : ℕ → Bool) (delta : ℝ) :
    HeldKeyName → ℝ :=
  match s.map with
  | .buttonMap keys => fun k => if pressed (keys k) then s.held_map k + delta else 0
  | .axisMap _ _ _ _ _ _ => s.held_map

/-- The unclamped `rc_state` list `[x, z, y, r]` (the source indexes it with
`_X_IDX = 0, _Z_IDX = 1, _Y_IDX = 2, _R_IDX = 3`) computed by
`RemoteControl.__compute_rc` before the alignment loop.  In the source's
button branch the four assignments sit inside the `for key in self.held_map`
loop and are overwritten on every iteration, so only the final iteration —
which sees the fully updated `held_map` — survives; that final value is what
is written here.  `pressed` is `pg.key.get_pressed()` and `axes` is
`self.stick.get_axis`. -/
noncomputable def raw_rc (s : RemoteControl) (pressed : ℕ → Bool) (axes : ℕ → ℝ)
    (delta : ℝ) : List ℝ :=
  match s.map with
  | .buttonMap keys =>
      let held := fun k => if pressed (keys k) then s.held_map k + delta else 0
      let bc := fun t => btn_acc_curve s.aggression s.acc_time t
      [bc (held .XP) - bc (held .XM),
       bc (held .ZP) - bc (held .ZM),
       bc (held .YP) - bc (held .YM),
       bc (held .RR) - bc (held .RL)]
  | .axisMap X Y Z R RL RR =>
      [dz_axis_clamp 0.3 (axes X) false,
       -dz_axis_clamp 0.3 (axes Z) false,
       -dz_axis_clamp 0.3 (axes Y) false,
       (match R with
        | some r => dz_axis_clamp 0.3 (axes r) false
        | none => (1 + axes RR) / 2 - (1 + axes RL) / 2)]

/-- `RemoteControl.__compute_rc(delta)`: update the held times, compute the
raw `rc_state`, clamp each component with the alignment loop, and store the
result in `self.__current_rc`. -/
noncomputable def compute_rc (s : RemoteControl) (pressed : ℕ → Bool)
    (axes : ℕ → ℝ) (delta : ℝ) : RemoteControl :=
  { s with held_map := new_held s pressed delta,
           current_rc := (raw_rc s pressed axes delta).map rcClamp }

/-- `RemoteControl.__detect_actions()`: scan the pending
`JOYBUTTONDOWN`/`KEYDOWN` events in arrival order and append to the action
queue each event that matches the current mode and whose button/key is in the
current `action_map`. -/
def detect_actions (s : RemoteControl) (events : List InEvent) : RemoteControl :=
  { s with action_q := s.action_q ++ events.filterMap (fun e =>
      match e, s.mode with
      | .joyBtnDown b, .joystick => s.action_map b
      | .keyDown k, .keyboard => s.action_map k
      | _, _ => none) }

/-- The raw inputs consumed by one call to `RemoteControl.update`: the pending
joystick attach/detach events, the polled key state, the polled joystick axis
values, and the pending button/key-down events. -/
structure UpdateInput where
  joyEvents : List JoyEvent
  pressed : ℕ → Bool
  axes : ℕ → ℝ
  btnEvents : List InEvent

/-- `RemoteControl.update(delta)`: process the device events, then
`__compute_rc(delta)`, then `__detect_actions()`. -/
noncomputable def update (s : RemoteControl) (inp : UpdateInput) (delta : ℝ) :
    RemoteControl :=
  detect_actions
    (compute_rc (processJoyEvents s inp.joyEvents) inp.pressed inp.axes delta)
    inp.btnEvents

/-- `RemoteControl.get_rc()`. -/
def get_rc (s : RemoteControl) : List ℤ := s.current_rc

/-- `RemoteControl.next_action()`: `None` when the queue is empty, otherwise
pop and return the front element (`self.__action_q.pop(0)`). -/
def next_action (s : RemoteControl) : Option String × RemoteControl :=
  match s.action_q with
  | [] => (none, s)
  | a :: rest => (some a, { s with action_q := rest })

/-! ## tello_rc.py: `__send_cmd` response-wait loop -/

/-- `self.MAX_TIMEOUT` (seconds). -/
def MAX_TIMEOUT : ℚ := 5

/-- The busy-wait loop of `TelloRC.__send_cmd` after the datagram has been
transmitted, modelled as polling: `resp n` is the value of the appended log
record's response field (`self.cmd_log[-1][1]`) as read at the `n`-th loop
check, and `elapsed n` the value of `perf_counter() - start` at that check.
The function returns `some (finalRecordResponse, returnValue)` when the loop
exits within `fuel` checks, `none` when `fuel` checks do not suffice (the
loop is still running).  If the record is still `None` and the elapsed time
exceeds `MAX_TIMEOUT`, the record is set to `"TIMED OUT"` and `None` (here
`Option.none`) is returned to the caller; if the record holds a string `s`,
the loop exits and `s` is returned. -/
def send_cmd_loop (resp : ℕ → Option String) (elapsed : ℕ → ℚ) :
    ℕ → ℕ → Option (String × Option String)
  | 0, _ => none
  | fuel + 1, n =>
    match resp n with
    | some s => some (s, some s)
    | none =>
      if MAX_TIMEOUT < elapsed n then some ("TIMED OUT", none)
      else send_cmd_loop resp elapsed fuel (n + 1)

/-! ## tello_rc.py: `connect` / `__connect` -/

/-- The `TelloRC` fields that `connect`/`__connect` touch.  Thread objects are
modelled by started-flags; `sent` is the list of command strings transmitted
with `__send_cmd`, in order. -/
structure TelloState where
  active : Bool
  connected : Bool
  flying : Bool
  receive_started : Bool
  state_started : Bool
  video_started : Bool
  sent : List String
deriving DecidableEq

/-- The `TelloRC.__init__` values of the fields in `TelloState`. -/
def initTello : TelloState :=
  { active := false, connected := false, flying := false,
    receive_started := false, state_started := false, video_started := false,
    sent := [] }

/-- The attempt loop of `TelloRC.__connect(attempts)`: each iteration sends
the literal `"command"` string; `resp i` is the result of that `__send_cmd`
call (`none` models a `None` return after a timeout).  On a response equal to
`"ok"` the loop sets `connected`, sends `"streamon"`, and returns `True`;
after exhausting the attempts it returns `False`.  `i` indexes the attempts
so that attempt `i` observes `resp i`. -/
def connect_inner (resp : ℕ → Option String) : ℕ → ℕ → TelloState → Bool × TelloState
  | 0, _, s => (false, s)
  | k + 1, i, s =>
    let s1 := { s with sent := s.sent ++ ["command"] }
    if resp i = some "ok" then
      (true, { s1 with connected := true, sent := s1.sent ++ ["streamon"] })
    else connect_inner resp k (i + 1) s1

/-- `TelloRC.connect()`: set `active`, start the command-receiver thread, run
`__connect` (5 attempts); on failure return `False` there and then; on
success run `video_start()` and start the state thread, returning `True`. -/
def tello_connect (resp : ℕ → Option String) (s : TelloState) : Bool × TelloState :=
  let s1 := { s with active := true, receive_started := true }
  match connect_inner resp 5 0 s1 with
  | (true, s2) => (true, { s2 with video_started := true, state_started := true })
  | (false, s2) => (false, s2)

/-! ## tello_rc.py: `__receive_state` telemetry parsing -/

/-- A telemetry snapshot: the `state` dict, as an insertion-ordered
association list (Python dicts preserve insertion order). -/
abbrev Snapshot := List (String × String)

/-- Python dict assignment `state[label] = val`: overwrite in place when the
key is present, append otherwise. -/
def dict_insert (d : Snapshot) (k v : String) : Snapshot :=
  if d.any (fun p => p.1 = k) then
    d.map (fun p => if p.1 = k then (k, v) else p)
  else d ++ [(k, v)]

/-- Python `str.split(sep)` for a single-character separator, on the
character list: splitting the empty string yields `[[]]`, and separators at
the ends or adjacent to each other yield empty parts, exactly as in
Python. -/
def split_on_char (c : Char) : List Char → List (List Char)
  | [] => [[]]
  | x :: xs =>
    match split_on_char c xs with
    | [] => [[x]]
    | y :: ys => if x = c then [] :: y :: ys else (x :: y) :: ys

/-- Python `str.split(sep)` for a single-character separator. -/
def py_split (c : Char) (s : String) : List String :=
  (split_on_char c s.toList).map List.asString

/-- Python `str.strip()`: drop whitespace from both ends. -/
def py_strip (s : String) : String :=
  ((s.toList.dropWhile (·.isWhitespace)).reverse.dropWhile
    (·.isWhitespace)).reverse.asString

/-- The tuple unpacking `label, val = item.split(':')`: succeeds exactly when
the split yields two parts; any other arity raises `ValueError`, modelled as
`none`. -/
def parse_token (item : String) : Option (String × String) :=
  match py_split ':' item with
  | [label, val] => some (label, val)
  | _ => none

/-- The `for item in vals` loop of `TelloRC.__receive_state`: skip empty
tokens, unpack `label:val` into the fresh `state` dict; a malformed token
raises `ValueError`, which aborts the whole loop (`none`). -/
def parse_state_go : List String → Snapshot → Option Snapshot
  | [], st => some st
  | item :: rest, st =>
    if item = "" then parse_state_go rest st
    else
      match parse_token item with
      | some lv => parse_state_go rest (dict_insert st lv.1 lv.2)
      | none => none

/-- The parsing stage of `TelloRC.__receive_state` applied to one decoded
datagram body: split on `';'` and build a fresh dict. -/
def parse_state (response : String) : Option Snapshot :=
  parse_state_go (py_split ';' response) []

/-- One iteration of the `TelloRC.__receive_state` loop body after a datagram
has been received and utf-8 decoded: strip, parse, and on success replace
`self.last_state` wholesale.  The `Bool` records whether the iteration raised
an uncaught exception: the surrounding `try` only catches `OSError` and
`UnicodeDecodeError`, so the `ValueError` from a malformed token propagates
and kills the receiver thread, leaving `last_state` unchanged. -/
def receive_state_step (prev : Option Snapshot) (datagram : String) :
    Bool × Option Snapshot :=
  match parse_state (py_strip datagram) with
  | some st => (false, some st)
  | none => (true, prev)

/-! ## Derived definitions used by the statements -/

/-- The invariant claimed of `get_rc`: exactly 4 components, each an integer
in `[-100, 100]`. -/
def rc_in_range (s : RemoteControl) : Prop :=
  (get_rc s).length = 4 ∧ ∀ v ∈ get_rc s, -100 ≤ v ∧ v ≤ 100

/-- Repeatedly call `next_action`, collecting the returned actions, for at
most `n` pops; stops at the first `None`. -/
def drain_actions : ℕ → RemoteControl → List String
  | 0, _ => []
  | n + 1, s =>
    match next_action s with
    | (none, _) => []
    | (some a, s2) => a :: drain_actions n s2

/-- A concrete keyboard-mode `RemoteControl` whose `"XP"` held time is 1.0
second (the d-key has been held), used to exercise a keyboard→joystick mode
switch. -/
def c7_state : RemoteControl :=
  { aggression := 2, acc_time := 10, mode := .keyboard, map := Keyboard_Map,
    action_map := Keyboard_Actions, stick := false,
    held_map := fun k => if k = HeldKeyName.XP then 1 else 0,
    current_rc := [0, 0, 0, 0], action_q := [] }

/-- A concrete `update` input holding exactly one `JOYDEVICEADDED` event, no
pressed keys, centred axes, and no button events. -/
def c7_input : UpdateInput :=
  { joyEvents := [JoyEvent.added], pressed := fun _ => false,
    axes := fun _ => 0, btnEvents := [] }

/-- A concrete joystick-mode `RemoteControl`, used to exercise a
joystick→keyboard mode switch. -/
def c7_joy_state : RemoteControl :=
  { aggression := 2, acc_time := 10, mode := .joystick, map := Xbox_FPS_Map,
    action_map := Xbox_Action, stick := true,
    held_map := fun k => if k = HeldKeyName.XP then 1 else 0,
    current_rc := [0, 0, 0, 0], action_q := [] }

/-- A concrete `RemoteControl` whose action queue holds two pending actions. -/
def c9_state : RemoteControl :=
  { aggression := 2, acc_time := 10, mode := .keyboard, map := Keyboard_Map,
    action_map := Keyboard_Actions, stick := false, held_map := fun _ => 0,
    current_rc := [0, 0, 0, 0], action_q := ["TAKEOFF", "STOP"] }

/-! ## Theorems -/

/-- C8: `_dz_axis_clamp` is the identity on its input for every threshold and
value: with `positive=False` it returns `val` unchanged, with `positive=True`
it returns `val + 1`; the guard `d_zone < abs(val) < d_zone` never holds, so
no value is ever zeroed out. -/
theorem C8_dz_axis_clamp_id (d_zone val : ℝ) :
    dz_axis_clamp d_zone val false = val ∧ dz_axis_clamp d_zone val true = val + 1 := by
  constructor <;>
  · simp only [dz_axis_clamp, Bool.false_eq_true, if_false, if_true]
    rw [if_neg]
    rintro ⟨h1, h2⟩
    exact absurd (h1.trans h2) (lt_irrefl _)

theorem rcClamp_mem (v : ℝ) : -100 ≤ rcClamp v ∧ rcClamp v ≤ 100 :=
  ⟨le_max_left _ _, max_le (by norm_num) (min_le_left _ _)⟩

theorem raw_rc_length (s : RemoteControl) (pressed : ℕ → Bool) (axes : ℕ → ℝ)
    (delta : ℝ) : (raw_rc s pressed axes delta).length = 4 := by
  unfold raw_rc
  cases s.map <;> simp

theorem update_current_rc (s : RemoteControl) (inp : UpdateInput) (delta : ℝ) :
    (update s inp delta).current_rc =
      (raw_rc (processJoyEvents s inp.joyEvents) inp.pressed inp.axes delta).map
        rcClamp := rfl

theorem update_rc_in_range (s : RemoteControl) (inp : UpdateInput) (delta : ℝ) :
    rc_in_range (update s inp delta) := by
  constructor
  · rw [get_rc, update_current_rc, List.length_map, raw_rc_length]
  · intro v hv
    rw [get_rc, update_current_rc, List.mem_map] at hv
    obtain ⟨x, -, rfl⟩ := hv
    exact rcClamp_mem x

theorem foldl_rc_in_range (l : List (UpdateInput × ℝ)) (s0 : RemoteControl)
    (h : rc_in_range s0) :
    rc_in_range (l.foldl (fun s2 p => update s2 p.1 p.2) s0) := by
  induction l generalizing s0 with
  | nil => exact h
  | cons p rest ih => exact ih _ (update_rc_in_range _ _ _)

/-- C1: for every sequence of raw key/axis/button inputs and every delta,
after `RemoteControl.update` the control vector returned by `get_rc` has
exactly 4 components, each an integer in `[-100, 100]` inclusive; this holds
after any single update of any state (hence in both keyboard and joystick
mode), for the initial state `[0, 0, 0, 0]`, and along every sequence of
updates from the initial state. -/
theorem C1_rc_vector_bounded (a t : ℝ) (s : RemoteControl) (inp : UpdateInput)
    (delta : ℝ) (steps : List (UpdateInput × ℝ)) :
    rc_in_range (mkRemoteControl a t) ∧
    rc_in_range (update s inp delta) ∧
    rc_in_range (steps.foldl (fun s2 p => update s2 p.1 p.2) (mkRemoteControl a t)) := by
  have hinit : rc_in_range (mkRemoteControl a t) := by
    constructor
    · rfl
    · intro v hv
      simp only [get_rc, mkRemoteControl, List.mem_cons, List.not_mem_nil,
        or_false] at hv
      rcases hv with rfl | rfl | rfl | rfl <;> norm_num
  exact ⟨hinit, update_rc_in_range s inp delta, foldl_rc_in_range steps _ hinit⟩

theorem drain_actions_eq : ∀ (l : List String) (s : RemoteControl),
    s.action_q = l → drain_actions l.length s = l := by
  intro l
  induction l with
  | nil => intro s _; rfl
  | cons a rest ih =>
      intro s hs
      simp only [List.length_cons, drain_actions, next_action, hs]
      exact congrArg (a :: ·) (ih _ rfl)

/-- C9: the action queue is strictly FIFO: `next_action` returns `None`
exactly when the queue is empty, otherwise it returns and removes the front
element; `__detect_actions` appends detected actions in arrival order; and
repeated pops return exactly the queued actions in order, draining the queue
(each enqueued action is returned at most once). -/
theorem C9_action_queue_fifo (s : RemoteControl) :
    ((next_action s).1 = none ↔ s.action_q = []) ∧
    (∀ a rest, s.action_q = a :: rest →
      next_action s = (some a, { s with action_q := rest })) ∧
    (∀ events : List InEvent, (detect_actions s events).action_q =
      s.action_q ++ events.filterMap (fun e =>
        match e, s.mode with
        | .joyBtnDown b, .joystick => s.action_map b
        | .keyDown k, .keyboard => s.action_map k
        | _, _ => none)) ∧
    drain_actions s.action_q.length s = s.action_q := by
  refine ⟨?_, ?_, fun _ => rfl, drain_actions_eq _ _ rfl⟩
  · cases h : s.action_q <;> simp [next_action, h]
  · intro a rest h
    simp [next_action, h]

/-- Witness for C9 at a concrete queue `["TAKEOFF", "STOP"]`. -/
theorem C9_action_queue_fifo_witness :
    c9_state.action_q = "TAKEOFF" :: ["STOP"] ∧
    next_action c9_state = (some "TAKEOFF", { c9_state with action_q := ["STOP"] }) :=
  ⟨rfl, (C9_action_queue_fifo c9_state).2.1 "TAKEOFF" ["STOP"] rfl⟩

theorem acc_curve_unit (a u : ℝ) (h0 : 0 ≤ u) (h1 : u ≤ 1) :
    acc_curve a u = Real.logb a ((a - 1) * u + 1) := by
  rw [acc_curve, if_neg (not_lt.mpr h0), abs_of_nonneg h0, min_eq_right h1,
    max_eq_right h0, one_mul]

theorem acc_curve_mono (a u v : ℝ) (ha : 2 ≤ a) (h0 : 0 ≤ u) (huv : u ≤ v)
    (h1 : v ≤ 1) : acc_curve a u ≤ acc_curve a v := by
  have h1a : (1 : ℝ) < a := by linarith
  rw [acc_curve_unit a u h0 (huv.trans h1), acc_curve_unit a v (h0.trans huv) h1]
  have hx : (0 : ℝ) < (a - 1) * u + 1 := by nlinarith
  have hle : (a - 1) * u + 1 ≤ (a - 1) * v + 1 := by nlinarith
  exact Real.logb_le_logb_of_le h1a hx hle

/-- C2: for every `aggression ≥ 2` and `acc_time ≥ 1` (the floors enforced by
the constructor), the held-button acceleration curve satisfies `curve(0) = 0`
and `curve(t) = 1` for every `t ≥ acc_time`, and is monotonically
non-decreasing in the held duration on `[0, acc_time]`, over exact real
arithmetic. -/
theorem C2_acc_curve_spec (a T : ℝ) (ha : 2 ≤ a) (hT : 1 ≤ T) :
    btn_acc_curve a T 0 = 0 ∧
    (∀ t : ℝ, T ≤ t → btn_acc_curve a T t = 1) ∧
    (∀ t u : ℝ, 0 ≤ t → t ≤ u → u ≤ T → btn_acc_curve a T t ≤ btn_acc_curve a T u) := by
  have hT0 : (0 : ℝ) < T := by linarith
  have h1a : (1 : ℝ) < a := by linarith
  refine ⟨?_, ?_, ?_⟩
  · rw [btn_acc_curve, min_eq_left hT0.le, max_self, zero_div,
      acc_curve_unit a 0 le_rfl zero_le_one, mul_zero, zero_add, Real.logb_one]
  · intro t ht
    rw [btn_acc_curve, min_eq_right ht, max_eq_right hT0.le, div_self hT0.ne',
      acc_curve_unit a 1 zero_le_one le_rfl, mul_one]
    rw [show a - 1 + 1 = a by ring]
    exact Real.logb_self_eq_one h1a
  · intro t u ht htu huT
    rw [btn_acc_curve, btn_acc_curve]
    refine acc_curve_mono a _ _ ha ?_ ?_ ?_
    · exact div_nonneg (le_max_left 0 _) hT0.le
    · exact div_le_div_of_nonneg_right
        (max_le_max le_rfl (min_le_min htu le_rfl)) hT0.le
    · exact (div_le_one hT0).mpr (max_le hT0.le (min_le_right _ _))

/-- Witness for C2 at `aggression = 2`, `acc_time = 1`. -/
theorem C2_acc_curve_spec_witness :
    (2 : ℝ) ≤ 2 ∧ (1 : ℝ) ≤ 1 ∧ btn_acc_curve 2 1 0 = 0 :=
  ⟨le_refl 2, le_refl 1, (C2_acc_curve_spec 2 1 (le_refl 2) (le_refl 1)).1⟩

theorem send_cmd_loop_timed_out (resp : ℕ → Option String) (elapsed : ℕ → ℚ) :
    ∀ (k n : ℕ), (∀ m, n ≤ m → m ≤ n + k → resp m = none) →
      MAX_TIMEOUT < elapsed (n + k) →
      send_cmd_loop resp elapsed (k + 1) n = some ("TIMED OUT", none) := by
  intro k
  induction k with
  | zero =>
      intro n h hel
      rw [Nat.add_zero] at hel
      have h1 : resp n = none := h n le_rfl (by omega)
      simp only [send_cmd_loop, h1]
      rw [if_pos hel]
  | succ k ih =>
      intro n h hel
      have h1 : resp n = none := h n le_rfl (by omega)
      simp only [send_cmd_loop, h1]
      by_cases hc : MAX_TIMEOUT < elapsed n
      · rw [if_pos hc]
      · rw [if_neg hc]
        refine ih (n + 1) (fun m hm1 hm2 => h m (by omega) (by omega)) ?_
        rw [show n + 1 + k = n + (k + 1) by omega]
        exact hel

theorem send_cmd_loop_response (resp : ℕ → Option String) (elapsed : ℕ → ℚ) :
    ∀ (k n : ℕ) (s : String),
      (∀ m, n ≤ m → m < n + k → resp m = none ∧ elapsed m ≤ MAX_TIMEOUT) →
      resp (n + k) = some s →
      send_cmd_loop resp elapsed (k + 1) n = some (s, some s) := by
  intro k
  induction k with
  | zero =>
      intro n s h hr
      rw [Nat.add_zero] at hr
      simp [send_cmd_loop, hr]
  | succ k ih =>
      intro n s h hr
      have h1 := h n le_rfl (by omega)
      simp only [send_cmd_loop, h1.1]
      rw [if_neg (not_lt.mpr h1.2)]
      refine ih (n + 1) s (fun m hm1 hm2 => h m (by omega) (by omega)) ?_
      rw [show n + 1 + k = n + (k + 1) by omega]
      exact hr

/-- C3: the response-wait loop of `__send_cmd` never blocks forever.  If the
pending log record is still unset at every poll up to a poll where the
elapsed time exceeds `MAX_TIMEOUT` (5 seconds), the loop terminates with the
record set to the sentinel `"TIMED OUT"` and `None` returned to the caller;
if a response string is delivered before the timeout, that string is
returned (and kept in the record). -/
theorem C3_send_cmd_timeout (resp : ℕ → Option String) (elapsed : ℕ → ℚ) :
    (∀ N, (∀ n, n ≤ N → resp n = none) → MAX_TIMEOUT < elapsed N →
      send_cmd_loop resp elapsed (N + 1) 0 = some ("TIMED OUT", none)) ∧
    (∀ n s, (∀ m, m < n → resp m = none ∧ elapsed m ≤ MAX_TIMEOUT) →
      resp n = some s →
      send_cmd_loop resp elapsed (n + 1) 0 = some (s, some s)) := by
  constructor
  · intro N h hel
    refine send_cmd_loop_timed_out resp elapsed N 0 (fun m _ hm => h m (by omega)) ?_
    rw [Nat.zero_add]
    exact hel
  · intro n s h hr
    refine send_cmd_loop_response resp elapsed n 0 s (fun m _ hm => h m (by omega)) ?_
    rw [Nat.zero_add]
    exact hr

/-- Witness for C3: with no response ever delivered and a clock that reads
`n` seconds at poll `n`, the loop returns the timeout sentinel. -/
theorem C3_send_cmd_timeout_witness :
    send_cmd_loop (fun _ => none) (fun n => (n : ℚ)) 7 0 = some ("TIMED OUT", none) :=
  (C3_send_cmd_timeout (fun _ => none) (fun n => (n : ℚ))).1 6 (fun _ _ => rfl)
    (by norm_num [MAX_TIMEOUT])

theorem connect_inner_fields (resp : ℕ → Option String) :
    ∀ (k i : ℕ) (s : TelloState),
      (connect_inner resp k i s).2.active = s.active ∧
      (connect_inner resp k i s).2.flying = s.flying ∧
      (connect_inner resp k i s).2.receive_started = s.receive_started ∧
      (connect_inner resp k i s).2.state_started = s.state_started ∧
      (connect_inner resp k i s).2.video_started = s.video_started := by
  intro k
  induction k with
  | zero => exact fun i s => ⟨rfl, rfl, rfl, rfl, rfl⟩
  | succ k ih =>
      intro i s
      simp only [connect_inner]
      by_cases hc : resp i = some "ok"
      · rw [if_pos hc]
        exact ⟨rfl, rfl, rfl, rfl, rfl⟩
      · rw [if_neg hc]
        exact ih (i + 1) _

theorem connect_inner_result (resp : ℕ → Option String) :
    ∀ (k i : ℕ) (s : TelloState),
      ((connect_inner resp k i s).1 = true ↔ ∃ j, j < k ∧ resp (i + j) = some "ok") := by
  intro k
  induction k with
  | zero =>
      intro i s
      simp [connect_inner]
  | succ k ih =>
      intro i s
      simp only [connect_inner]
      by_cases hc : resp i = some "ok"
      · rw [if_pos hc]
        simp only [true_iff]
        exact ⟨0, by omega, by simpa using hc⟩
      · rw [if_neg hc, ih (i + 1)]
        constructor
        · rintro ⟨j, hj, hr⟩
          exact ⟨j + 1, by omega, by rw [show i + (j + 1) = i + 1 + j by omega]; exact hr⟩
        · rintro ⟨j, hj, hr⟩
          match j, hr with
          | 0, hr => exact absurd (by simpa using hr) hc
          | j + 1, hr =>
              exact ⟨j, by omega, by rw [show i + 1 + j = i + (j + 1) by omega]; exact hr⟩

theorem connect_inner_connected (resp : ℕ → Option String) :
    ∀ (k i : ℕ) (s : TelloState),
      (connect_inner resp k i s).2.connected =
        ((connect_inner resp k i s).1 || s.connected) := by
  intro k
  induction k with
  | zero => intro i s; simp [connect_inner]
  | succ k ih =>
      intro i s
      simp only [connect_inner]
      by_cases hc : resp i = some "ok"
      · rw [if_pos hc]
        simp
      · rw [if_neg hc]
        exact ih (i + 1) _

theorem connect_inner_sent (resp : ℕ → Option String) :
    ∀ (k i : ℕ) (s : TelloState), ∃ msgs : List String,
      (connect_inner resp k i s).2.sent = s.sent ++ msgs ∧
      msgs.count "streamon" = (if (connect_inner resp k i s).1 then 1 else 0) ∧
      msgs.count "command" ≤ k ∧
      ∀ m ∈ msgs, m = "command" ∨ m = "streamon" := by
  intro k
  induction k with
  | zero =>
      intro i s
      exact ⟨[], by simp [connect_inner], by simp [connect_inner], by simp, by simp⟩
  | succ k ih =>
      intro i s
      simp only [connect_inner]
      by_cases hc : resp i = some "ok"
      · rw [if_pos hc]
        refine ⟨["command", "streamon"], by simp, ?_, ?_, ?_⟩
        · rw [List.count_cons_of_ne (by decide), List.count_cons_self]
          simp
        · rw [List.count_cons_self, List.count_cons_of_ne (by decide)]
          simp
        · intro m hm
          simpa using hm
      · rw [if_neg hc]
        obtain ⟨msgs, h1, h2, h3, h4⟩ := ih (i + 1) { s with sent := s.sent ++ ["command"] }
        refine ⟨"command" :: msgs, ?_, ?_, ?_, ?_⟩
        · rw [h1]
          simp
        · rw [List.count_cons_of_ne (by decide)]
          exact h2
        · rw [List.count_cons_self]
          omega
        · intro m hm
          rcases List.mem_cons.mp hm with h | h
          · exact Or.inl h
          · exact h4 m h

/-- C4: `connect` makes at most 5 attempts, each transmitting the literal
string `"command"`; it returns `True` iff some attempt's response is `"ok"`,
in which case `connected` becomes `True` and `"streamon"` is transmitted
exactly once; if all 5 attempts fail it returns `False` and `connected`
remains `False`. -/
theorem C4_connect_spec (resp : ℕ → Option String) (s : TelloState)
    (h : s.connected = false) :
    ((tello_connect resp s).1 = true ↔ ∃ j, j < 5 ∧ resp j = some "ok") ∧
    (tello_connect resp s).2.connected = (tello_connect resp s).1 ∧
    ∃ msgs : List String,
      (tello_connect resp s).2.sent = s.sent ++ msgs ∧
      msgs.count "streamon" = (if (tello_connect resp s).1 then 1 else 0) ∧
      msgs.count "command" ≤ 5 ∧
      ∀ m ∈ msgs, m = "command" ∨ m = "streamon" := by
  have hres := connect_inner_result resp 5 0
    { s with active := true, receive_started := true }
  have hcon := connect_inner_connected resp 5 0
    { s with active := true, receive_started := true }
  obtain ⟨msgs, hm1, hm2, hm3, hm4⟩ := connect_inner_sent resp 5 0
    { s with active := true, receive_started := true }
  unfold tello_connect
  dsimp only
  rcases hci : connect_inner resp 5 0
      { s with active := true, receive_started := true } with ⟨b, s2⟩
  rw [hci] at hres hcon hm1 hm2
  cases b
  · simp only at hres hcon hm1 hm2 ⊢
    refine ⟨?_, ?_, msgs, hm1, ?_, hm3, hm4⟩
    · rw [hres]
      simp only [Nat.zero_add]
    · rw [hcon, h]
      simp
    · simpa using hm2
  · simp only at hres hcon hm1 hm2 ⊢
    refine ⟨?_, ?_, msgs, hm1, ?_, hm3, hm4⟩
    · rw [hres]
      simp only [Nat.zero_add]
    · rw [hcon]
      simp
    · simpa using hm2

/-- Witness for C4: with responses timing out on attempts 1 and 2
(indices 0 and 1) and `"ok"` arriving on attempt 3 (index 2),
`connect` returns `True` from the initial state. -/
theorem C4_connect_spec_witness :
    initTello.connected = false ∧
    (tello_connect (fun i => if i = 2 then some "ok" else none) initTello).1 = true :=
  ⟨rfl, (C4_connect_spec (fun i => if i = 2 then some "ok" else none) initTello rfl).1.mpr
    ⟨2, by omega, rfl⟩⟩

/-- C10: connect failure is not atomic.  When `connect` returns `False` after
exhausting all 5 attempts, `connected` is still `False`, but `active` has
been set to `True` and remains `True`, and the command-receiver thread has
been started (and the video/state threads have not); the failure path does
not undo these side effects. -/
theorem C10_connect_failure_side_effects (resp : ℕ → Option String) (s : TelloState)
    (hc : s.connected = false) (hfail : ∀ j, j < 5 → resp j ≠ some "ok") :
    (tello_connect resp s).1 = false ∧
    (tello_connect resp s).2.connected = false ∧
    (tello_connect resp s).2.active = true ∧
    (tello_connect resp s).2.receive_started = true ∧
    (tello_connect resp s).2.video_started = s.video_started ∧
    (tello_connect resp s).2.state_started = s.state_started := by
  have hres := connect_inner_result resp 5 0
    { s with active := true, receive_started := true }
  have hcon := connect_inner_connected resp 5 0
    { s with active := true, receive_started := true }
  have hfields := connect_inner_fields resp 5 0
    { s with active := true, receive_started := true }
  unfold tello_connect
  dsimp only
  rcases hci : connect_inner resp 5 0
      { s with active := true, receive_started := true } with ⟨b, s2⟩
  rw [hci] at hres hcon hfields
  have hb : b = false := by
    cases b
    · rfl
    · simp only at hres
      obtain ⟨j, hj, hok⟩ := hres.mp trivial
      rw [Nat.zero_add] at hok
      exact absurd hok (hfail j hj)
  subst hb
  simp only at hcon hfields ⊢
  refine ⟨trivial, ?_, ?_, ?_, ?_, ?_⟩
  · rw [hcon, hc]
    simp
  · exact hfields.1
  · exact hfields.2.2.1
  · exact hfields.2.2.2.2
  · exact hfields.2.2.2.1

/-- Witness for C10: all five attempts time out from the initial state. -/
theorem C10_connect_failure_side_effects_witness :
    initTello.connected = false ∧
    (tello_connect (fun _ => none) initTello).1 = false ∧
    (tello_connect (fun _ => none) initTello).2.active = true :=
  ⟨rfl,
    (C10_connect_failure_side_effects (fun _ => none) initTello rfl
      (fun _ _ h2 => nomatch h2)).1,
    (C10_connect_failure_side_effects (fun _ => none) initTello rfl
      (fun _ _ h2 => nomatch h2)).2.2.1⟩

/-- C5: for every well-formed telemetry datagram of `;`-separated `key:value`
tokens the parser builds a fresh dictionary and replaces the whole snapshot,
independently of the previous snapshot (no merging); `"bat:87;time:120;"`
yields exactly `{"bat": "87", "time": "120"}` (the trailing empty token is
skipped), and the empty-string input yields an empty snapshot without
error. -/
theorem C5_telemetry_parse (prev : Option Snapshot) (d : String) (st : Snapshot)
    (h : parse_state (py_strip d) = some st) :
    receive_state_step prev d = (false, some st) ∧
    receive_state_step prev "bat:87;time:120;" =
      (false, some [("bat", "87"), ("time", "120")]) ∧
    receive_state_step prev "" = (false, some []) := by
  refine ⟨?_, rfl, rfl⟩
  rw [receive_state_step, h]

/-- Witness for C5 at the one-token datagram `"x:1"` and a non-empty previous
snapshot (showing the old snapshot does not leak into the new one). -/
theorem C5_telemetry_parse_witness :
    parse_state (py_strip "x:1") = some [("x", "1")] ∧
    receive_state_step (some [("old", "9")]) "x:1" = (false, some [("x", "1")]) :=
  ⟨rfl, (C5_telemetry_parse (some [("old", "9")]) "x:1" [("x", "1")] rfl).1⟩

/-- C6 claims a malformed telemetry token cannot raise an uncaught exception
in the receiver body; the code refutes this: on the datagram
`"bat87;time:120"` the tuple unpacking `label, val = item.split(':')` raises
`ValueError`, which the surrounding `try` (catching only `OSError` and
`UnicodeDecodeError`) does not catch, so the iteration crashes the telemetry
thread and the previous snapshot is left in place. -/
theorem C6_malformed_token_crash :
    receive_state_step (some [("bat", "50")]) "bat87;time:120" =
      (true, some [("bat", "50")]) := rfl

/-- C7 as stated is false: a keyboard→joystick switch does not reset the
held-duration accumulators.  Concretely, with the `"XP"` accumulator at 1.0
and a single `JOYDEVICEADDED` event, after `update` the accumulator still
reads 1.0, not 0.0. -/
theorem C7_mode_switch_counterexample :
    (update c7_state c7_input 1).held_map HeldKeyName.XP ≠ 0 := by
  have h1 : (update c7_state c7_input 1).held_map HeldKeyName.XP = 1 := by
    simp [update, detect_actions, compute_rc, new_held, processJoyEvents,
      processJoyEvent, c7_state, c7_input, Xbox_FPS_Map]
  rw [h1]
  norm_num

/-- C7 amended: a joystick→keyboard switch (`JOYDEVICEREMOVED` in joystick
mode) resets every held-duration accumulator to 0.0 and swaps in the
keyboard axis/action maps; a keyboard→joystick switch (`JOYDEVICEADDED` in
keyboard mode) swaps in the controller axis/action maps but leaves the
held-duration accumulators unchanged (they are reset only when switching
back to keyboard). -/
theorem C7_mode_switch_amended (s : RemoteControl) :
    (s.mode = Mode.joystick →
      processJoyEvents s [JoyEvent.removed] =
        { s with mode := Mode.keyboard, map := Keyboard_Map,
                 action_map := Keyboard_Actions, held_map := fun _ => 0 }) ∧
    (s.mode = Mode.keyboard →
      processJoyEvents s [JoyEvent.added] =
        { s with mode := Mode.joystick, stick := true,
                 map := Xbox_FPS_Map, action_map := Xbox_Action }) := by
  constructor
  · intro h
    simp [processJoyEvents, processJoyEvent, h]
  · intro h
    simp [processJoyEvents, processJoyEvent, h]

/-- Witness for the amended C7 at a concrete joystick-mode state. -/
theorem C7_mode_switch_witness :
    c7_joy_state.mode = Mode.joystick ∧
    processJoyEvents c7_joy_state [JoyEvent.removed] =
      { c7_joy_state with mode := Mode.keyboard, map := Keyboard_Map,
                          action_map := Keyboard_Actions,
                          held_map := fun _ => 0 } :=
  ⟨rfl, (C7_mode_switch_amended c7_joy_state).1 rfl⟩
